import Mathlib

/-!
Verification of the CSTBox web-services application server
(`lib/python/pycstbox/webservices/wsapp.py`), as a shallow embedding:
plugin discovery (`AppServer._discover_services`), route namespacing,
the request dispatch and error-envelope contract (`WSHandler`), the
fallback route (`AppServer.InvalidRequest`), request logging with muting
(`AppServer._log_request`), the route-table assembly
(`AppServer._setup_handlers`) and the start guard (`AppServer.start`).
-/

/-- Python `s.lstrip('/')`: removes every leading `'/'` character. -/
def lstripSlash (s : String) : String := ⟨s.data.dropWhile (fun c => c == '/')⟩

/-- Python `s.rstrip('/')`: removes every trailing `'/'` character. -/
def rstripSlash (s : String) : String := ⟨(s.data.reverse.dropWhile (fun c => c == '/')).reverse⟩

/-- One entry of a service route table: a tuple `(url_pattern, handler, ...)`;
the components after the pattern are abstracted by the handler name, since
`_discover_services` only rewrites `rule[0]` and keeps `rule[1:]` verbatim. -/
structure RouteRule where
  pattern : String
  handler : String
deriving DecidableEq

/-- `ServiceDescriptor` namedtuple: `(name, label, handlers)`. -/
structure ServiceDescriptor where
  name : String
  label : String
  handlers : List RouteRule
deriving DecidableEq

/-- Parsed view of a plugin MANIFEST file, as read through
`ConfigParser.SafeConfigParser({'mapping': 'handlers'})`: a `[service]`
section may be present or absent, and may define `label` and `mapping`. -/
structure Manifest where
  hasMainSection : Bool
  label : Option String
  mapping : Option String
deriving DecidableEq

/-- The Python exceptions that can arise during discovery. -/
inductive PyError where
  | noSectionError (sect : String)
  | noOptionError (sect opt : String)
  | importError (moduleName : String)
  | attrError (attr : String)
  | invalidRoute (url : String)
  | otherError (msg : String)
deriving DecidableEq

/-- A loadable service module: its route-table attributes, whether it has a
callable `_init_` hook, and whether that hook raises when invoked. -/
structure PyModule where
  attrs : List (String × List RouteRule)
  hasInit : Bool
  initResult : Option PyError
deriving DecidableEq

/-- A candidate subdirectory of the services home: its name, whether the two
marker files (`MANIFEST`, `__init__.py`) are present, and its manifest. -/
structure ServiceDir where
  name : String
  hasManifest : Bool
  hasInitPy : Bool
  manifest : Manifest
deriving DecidableEq

def MANIFEST_MAIN_SECTION : String := "service"

def SERVICES_PACKAGE_NAME : String := "pycstbox.webservices.services"

/-- `mf.get('service', 'label')`: `NoSectionError` if the section is absent,
`NoOptionError` if `label` is absent (it has no constructor default). -/
def mfGetLabel (m : Manifest) : Except PyError String :=
  if m.hasMainSection then
    match m.label with
    | some l => .ok l
    | none => .error (.noOptionError MANIFEST_MAIN_SECTION "label")
  else .error (.noSectionError MANIFEST_MAIN_SECTION)

/-- `mf.get('service', 'mapping')`: `NoSectionError` if the section is absent,
otherwise the value, defaulted to `"handlers"` by the constructor defaults. -/
def mfGetMapping (m : Manifest) : Except PyError String :=
  if m.hasMainSection then .ok (m.mapping.getD "handlers")
  else .error (.noSectionError MANIFEST_MAIN_SECTION)

/-- `getattr(module, attr)` restricted to route-table attributes. -/
def lookupAttr (m : PyModule) (attr : String) : Option (List RouteRule) :=
  (m.attrs.find? (fun p => p.1 == attr)).map (fun p => p.2)

/-- `url_base = "%s/%s/" % (self._app_url_base.rstrip('/'), service_name)`. -/
def serviceUrlBase (appUrlBase name : String) : String :=
  rstripSlash appUrlBase ++ "/" ++ name ++ "/"

/-- `effective_url = url_base + rule[0].lstrip('/')`. -/
def effectiveRouteUrl (urlBase pat : String) : String :=
  urlBase ++ lstripSlash pat

/-- Modelled from the spec (§4.3 RouteNamespacer wording, for comparison with
the code's `effectiveRouteUrl`): "strips at most one leading separator" from
the local pattern and prepends `applicationUrlBase + "/" + pluginName + "/"`. -/
def stripOneLeadingSlash (s : String) : String :=
  match s.data with
  | '/' :: rest => ⟨rest⟩
  | _ => s

/-- Modelled from the spec: the namespaced URL as the claim words it. -/
def effectiveRouteUrlSpec (appUrlBase name pat : String) : String :=
  appUrlBase ++ "/" ++ name ++ "/" ++ stripOneLeadingSlash pat

/-- The `for rule in mapping` loop: namespace each pattern, check it compiles
as a regexp (`compileOk` abstracts `re.compile` success), and either collect
the rewritten rules or raise on the first invalid one. -/
def buildHandlers (compileOk : String → Bool) (urlBase : String) :
    List RouteRule → Except PyError (List RouteRule)
  | [] => .ok []
  | r :: rs =>
    let eff := effectiveRouteUrl urlBase r.pattern
    if compileOk eff then
      match buildHandlers compileOk urlBase rs with
      | .ok rest => .ok (⟨eff, r.handler⟩ :: rest)
      | .error e => .error e
    else .error (.invalidRoute eff)

/-- The logger calls made by `_discover_services`, one constructor per site. -/
inductive DiscLog where
  | analysing (name : String)
  | discarded
  | validLocation
  | loading (name : String)
  | initInvoking
  | initOk
  | success
  | fatalExc (e : PyError)
  | excLogged (e : PyError)
  | couldNotLoad (name : String)
deriving DecidableEq

/-- The `except (ImportError, AttributeError)` clause re-raises exactly these. -/
def isFatalError : PyError → Bool
  | .importError _ => true
  | .attrError _ => true
  | _ => false

/-- Body of the `try` block of `_discover_services` for one directory: it
loads the module, runs `_init_` if present, resolves the mapping attribute,
namespaces and checks the routes, and builds the descriptor. -/
def tryLoadService (compileOk : String → Bool) (importMod : String → Option PyModule)
    (appUrlBase : String) (d : ServiceDir) (label mappingAttr : String) :
    List DiscLog × Except PyError ServiceDescriptor :=
  match importMod (SERVICES_PACKAGE_NAME ++ "." ++ d.name) with
  | none => ([], .error (.importError (SERVICES_PACKAGE_NAME ++ "." ++ d.name)))
  | some m =>
    let initStep : List DiscLog × Option PyError :=
      if m.hasInit then
        match m.initResult with
        | some e => ([.initInvoking], some e)
        | none => ([.initInvoking, .initOk], none)
      else ([], none)
    match initStep.2 with
    | some e => (initStep.1, .error e)
    | none =>
      match lookupAttr m mappingAttr with
      | none => (initStep.1, .error (.attrError mappingAttr))
      | some mapping =>
        match buildHandlers compileOk (serviceUrlBase appUrlBase d.name) mapping with
        | .ok handlers => (initStep.1, .ok ⟨d.name, label, handlers⟩)
        | .error e => (initStep.1, .error e)

/-- One iteration of the directory loop of `_discover_services`: the marker
check, the manifest reads (outside the `try` block, so their errors
propagate), then the `try` body with its two `except` clauses. Returns the
log events and either a propagated error, `some` descriptor appended, or
`none` when the directory is skipped. -/
def processDir (compileOk : String → Bool) (importMod : String → Option PyModule)
    (appUrlBase : String) (d : ServiceDir) :
    List DiscLog × Except PyError (Option ServiceDescriptor) :=
  if d.hasManifest && d.hasInitPy then
    match mfGetLabel d.manifest with
    | .error e => ([.analysing d.name, .validLocation], .error e)
    | .ok label =>
      match mfGetMapping d.manifest with
      | .error e => ([.analysing d.name, .validLocation], .error e)
      | .ok mappingAttr =>
        let t := tryLoadService compileOk importMod appUrlBase d label mappingAttr
        let pre : List DiscLog := [.analysing d.name, .validLocation, .loading d.name]
        match t.2 with
        | .ok desc => (pre ++ t.1 ++ [.success], .ok (some desc))
        | .error e =>
          if isFatalError e then (pre ++ t.1 ++ [.fatalExc e], .error e)
          else (pre ++ t.1 ++ [.excLogged e, .couldNotLoad d.name], .ok none)
  else ([.analysing d.name, .discarded], .ok none)

/-- The directory loop: process each sorted directory in turn, accumulating
logs; a propagated error aborts the loop (the partial list is lost). -/
def discoverLoop (compileOk : String → Bool) (importMod : String → Option PyModule)
    (appUrlBase : String) : List ServiceDir → List DiscLog × Except PyError (List ServiceDescriptor)
  | [] => ([], .ok [])
  | d :: ds =>
    let p := processDir compileOk importMod appUrlBase d
    match p.2 with
    | .error e => (p.1, .error e)
    | .ok odesc =>
      let rest := discoverLoop compileOk importMod appUrlBase ds
      (p.1 ++ rest.1,
       match rest.2 with
       | .error e => .error e
       | .ok l =>
         .ok (match odesc with
              | some desc => desc :: l
              | none => l))

/-- Byte-wise comparison of characters, as Python 2 compares str. -/
def lexLe : List Char → List Char → Bool
  | [], _ => true
  | _ :: _, [] => false
  | a :: as, b :: bs =>
    if a.toNat < b.toNat then true
    else if b.toNat < a.toNat then false
    else lexLe as bs

/-- `a <= b` on Python strings. -/
def strLe (a b : String) : Bool := lexLe a.data b.data

/-- Stable insertion into a name-sorted directory list. -/
def insertDir (d : ServiceDir) : List ServiceDir → List ServiceDir
  | [] => [d]
  | x :: xs => if strLe d.name x.name then d :: x :: xs else x :: insertDir d xs

/-- Python `sorted` on the candidate directories, by name. -/
def sortDirs : List ServiceDir → List ServiceDir
  | [] => []
  | d :: ds => insertDir d (sortDirs ds)

/-- `AppServer._discover_services`: sort the candidate subdirectories by name
and run the loop. `compileOk` abstracts `re.compile` success and `importMod`
abstracts `importlib.import_module`. -/
def discoverServices (compileOk : String → Bool) (importMod : String → Option PyModule)
    (appUrlBase : String) (dirs : List ServiceDir) :
    List DiscLog × Except PyError (List ServiceDescriptor) :=
  discoverLoop compileOk importMod appUrlBase (sortDirs dirs)

/-- A JSON reply: the HTTP status and the written dict. -/
structure WSResponse where
  status : Nat
  body : List (String × String)
deriving DecidableEq

/-- `WSHandler.reply_not_implemented`. -/
def replyNotImplemented : WSResponse :=
  ⟨501, [("message", "not yet implemented")]⟩

/-- The four `do_*` verb methods of a handler class, for a handler whose
replies do not depend on request arguments. -/
structure HandlerClass where
  doGet : WSResponse
  doPost : WSResponse
  doPut : WSResponse
  doDelete : WSResponse
deriving DecidableEq

/-- `WSHandler` defaults: every verb replies "not yet implemented". -/
def wsHandlerDefault : HandlerClass :=
  ⟨replyNotImplemented, replyNotImplemented, replyNotImplemented, replyNotImplemented⟩

/-- `AppServer.InvalidRequest.do_get`: sets status 404, writes nothing. -/
def invalidRequestDoGet : WSResponse := ⟨404, []⟩

/-- `AppServer.InvalidRequest`: overrides `do_get` and `do_post` (which
delegates to `do_get`); `do_put` and `do_delete` are inherited from
`WSHandler`. -/
def invalidRequest : HandlerClass :=
  { wsHandlerDefault with doGet := invalidRequestDoGet, doPost := invalidRequestDoGet }

/-- An exception raised by a handler method, as the dispatch code sees it:
whether it is a `tornado.web.HTTPError`, its status and log message (used in
that case), its class name, `str()` form and optional `reason` attribute. -/
structure PyExc where
  isHTTPError : Bool
  httpStatus : Nat
  logMessage : String
  typeName : String
  strForm : String
  reason : Option String
deriving DecidableEq

/-- The outcome of invoking one `do_*` method. -/
inductive MethodOutcome where
  | ok (resp : WSResponse)
  | raises (e : PyExc)
deriving DecidableEq

/-- `WSHandler.exception_reply`: status 500 and the generic error envelope. -/
def exceptionReply (e : PyExc) : WSResponse :=
  ⟨500, [("errtype", e.typeName), ("message", e.strForm),
         ("additInfos", match e.reason with | some r => r | none => "")]⟩

/-- What `WSHandler._process_request` leaves behind: either a written
response, or a re-raised `HTTPError` handed to tornado. -/
inductive DispatchResult where
  | response (r : WSResponse)
  | reraised (e : PyExc)
deriving DecidableEq

/-- `WSHandler._process_request`: run the method; re-raise an `HTTPError`,
convert anything else through `exception_reply`. -/
def processRequest (outcome : MethodOutcome) : DispatchResult :=
  match outcome with
  | .ok r => .response r
  | .raises e =>
    if e.isHTTPError then .reraised e else .response (exceptionReply e)

/-- `WSHandler.write_error`: for an `HTTPError` write `{'message':
log_message}` with the given status, otherwise fall back to
`exception_reply`. -/
def writeError (statusCode : Nat) (e : PyExc) : WSResponse :=
  if e.isHTTPError then ⟨statusCode, [("message", e.logMessage)]⟩
  else exceptionReply e

/-- End-to-end reply for one method invocation: a re-raised `HTTPError` is
translated by tornado into a `write_error` call with the error's status. -/
def handleRequest (outcome : MethodOutcome) : WSResponse :=
  match processRequest outcome with
  | .response r => r
  | .reraised e => writeError e.httpStatus e

/-- Logger levels used by `_log_request`. -/
inductive LogLevel where
  | info
  | warning
  | error
deriving DecidableEq

/-- The log calls `_log_request` can emit for one completed request. -/
inductive ReqLog where
  | muteNotice (uri : String)
  | requestLine (level : LogLevel) (status : Nat) (uri : String)
deriving DecidableEq

/-- A completed request as `_log_request` sees it: its URI, final status and
whether its handler defines `disable_request_logging = True`. -/
structure CompletedRequest where
  uri : String
  status : Nat
  disableRequestLogging : Bool
deriving DecidableEq

/-- `AppServer._log_request`: takes the current `_muted_requests` list and a
completed request; returns the new list and the emitted log calls. -/
def logRequest (muted : List String) (r : CompletedRequest) :
    List String × List ReqLog :=
  if r.status < 400 then
    if r.uri ∈ muted then (muted, [])
    else if r.disableRequestLogging then
      (muted ++ [r.uri], [.muteNotice r.uri, .requestLine .info r.status r.uri])
    else (muted, [.requestLine .info r.status r.uri])
  else if r.status < 500 then (muted, [.requestLine .warning r.status r.uri])
  else (muted, [.requestLine .error r.status r.uri])

/-- The `_muted_requests` list after a sequence of completed requests. -/
def muteStateAfter (muted : List String) : List CompletedRequest → List String
  | [] => muted
  | r :: rs => muteStateAfter (logRequest muted r).1 rs

/-- The per-request log outputs over a sequence of completed requests. -/
def logTrace (muted : List String) : List CompletedRequest → List (List ReqLog)
  | [] => []
  | r :: rs => (logRequest muted r).2 :: logTrace (logRequest muted r).1 rs

/-- The `AppServer` state observed by `start`: whether `self._ioloop` is set. -/
structure AppServerState where
  ioloopActive : Bool
deriving DecidableEq

/-- The head of `AppServer.start`: the already-started guard, then the ioloop
is obtained and the server is listening. -/
def startServerBegin (s : AppServerState) : Except String AppServerState :=
  if s.ioloopActive then .error "server already started"
  else .ok ⟨true⟩

/-- The tail of `AppServer.start`: once the ioloop returns, `self._ioloop`
is reset to `None`. -/
def startServerFinish (_s : AppServerState) : AppServerState := ⟨false⟩

/-- One complete call of `AppServer.start` in which the event loop ran and
was then stopped. -/
def startServer (s : AppServerState) : Except String AppServerState :=
  (startServerBegin s).map startServerFinish

/-- The initial value of the class attribute `AppServer.toplevel_handlers`. -/
def toplevelHandlersInit : List RouteRule := []

/-- The class attribute `AppServer.fallback_handlers`. -/
def fallbackHandlers : List RouteRule := [⟨"/.*", "InvalidRequest"⟩]

/-- The `for service in services: handlers.extend(service.handlers)` loop. -/
def extendAll (handlers : List RouteRule) : List ServiceDescriptor → List RouteRule
  | [] => handlers
  | s :: rest => extendAll (handlers ++ s.handlers) rest

/-- `AppServer._setup_handlers`: `handlers = self.toplevel_handlers` aliases
the class-level list, which is then extended in place with each service's
rules and the fallback rules and returned. The result pair is (returned
list, class-level `toplevel_handlers` list after the call) — one and the
same list. -/
def setupHandlers (toplevelHandlers : List RouteRule) (services : List ServiceDescriptor) :
    List RouteRule × List RouteRule :=
  let handlers := extendAll toplevelHandlers services ++ fallbackHandlers
  (handlers, handlers)

instance instDecEqExcept {e a : Type} [DecidableEq e] [DecidableEq a] :
    DecidableEq (Except e a) := fun x y =>
  match x, y with
  | .error u, .error v =>
    match decEq u v with
    | isTrue h => isTrue (by rw [h])
    | isFalse h => isFalse (fun hc => h (by injection hc))
  | .error _, .ok _ => isFalse (fun hc => Except.noConfusion hc)
  | .ok _, .error _ => isFalse (fun hc => Except.noConfusion hc)
  | .ok u, .ok v =>
    match decEq u v with
    | isTrue h => isTrue (by rw [h])
    | isFalse h => isFalse (fun hc => h (by injection hc))

/-- A well-formed manifest (used in concrete scenarios). -/
def okManifest : Manifest := ⟨true, some "Label", none⟩

/-- A manifest whose `[service]` section lacks the `label` key. -/
def noLabelManifest : Manifest := ⟨true, none, none⟩

def svcDirA : ServiceDir := ⟨"aaa", true, true, okManifest⟩

def svcDirBad : ServiceDir := ⟨"bbb", true, true, noLabelManifest⟩

def svcDirC : ServiceDir := ⟨"ccc", true, true, okManifest⟩

/-- A directory missing the `__init__.py` marker. -/
def svcDirNoMarker : ServiceDir := ⟨"bbb", true, false, okManifest⟩

/-- A module exposing a one-route `handlers` table, with no `_init_` hook. -/
def sampleModule : PyModule := ⟨[("handlers", [⟨"/x", "XHandler"⟩])], false, none⟩

def sampleImport : String → Option PyModule := fun _ => some sampleModule

def noImport : String → Option PyModule := fun _ => none

def allRegexOk : String → Bool := fun _ => true

/-- The head of a list stripped of its leading slashes is never a slash. -/
theorem head_dropWhileSlash (l : List Char) :
    (l.dropWhile (fun c => c == '/')).head? ≠ some '/' := by
  induction l with
  | nil => simp
  | cons a as ih =>
    rw [List.dropWhile_cons]
    by_cases h : a = '/'
    · simpa [h] using ih
    · simp [h]

theorem lstripSlash_head (s : String) : (lstripSlash s).data.head? ≠ some '/' :=
  head_dropWhileSlash s.data

theorem rstripSlash_last (s : String) : (rstripSlash s).data.getLast? ≠ some '/' := by
  show ((s.data.reverse.dropWhile (fun c => c == '/')).reverse).getLast? ≠ some '/'
  rw [List.getLast?_reverse]
  exact head_dropWhileSlash s.data.reverse

/-- Stripping leading slashes absorbs an extra leading slash. -/
theorem lstripSlash_slash_append (p : String) : lstripSlash ("/" ++ p) = lstripSlash p := by
  show String.mk ((("/" ++ p).data).dropWhile (fun c => c == '/')) = _
  rw [String.data_append]
  rfl

/-- The effective URL splits into base, name and stripped pattern with the
two explicit join separators. -/
theorem effectiveRouteUrl_decomp (b n p : String) :
    (effectiveRouteUrl (serviceUrlBase b n) p).data
      = (rstripSlash b).data ++ '/' :: (n.data ++ '/' :: (lstripSlash p).data) := by
  show ((rstripSlash b ++ "/" ++ n ++ "/") ++ lstripSlash p).data = _
  simp [String.data_append]

/-- C4, amended: route namespacing removes every leading separator of the
plugin-local pattern (not just one) and every trailing separator of the
application URL base, then joins base, plugin name and pattern with single
`'/'` separators, so that — the plugin name itself containing no separator —
exactly one separator appears at each join point; adding a leading separator
to the local pattern does not change the effective URL. -/
theorem route_namespacing_separators (b n p : String) (hn : ∀ c ∈ n.data, c ≠ '/') :
    (effectiveRouteUrl (serviceUrlBase b n) p).data
      = (rstripSlash b).data ++ '/' :: (n.data ++ '/' :: (lstripSlash p).data)
    ∧ (rstripSlash b).data.getLast? ≠ some '/'
    ∧ n.data.head? ≠ some '/'
    ∧ n.data.getLast? ≠ some '/'
    ∧ (lstripSlash p).data.head? ≠ some '/'
    ∧ effectiveRouteUrl (serviceUrlBase b n) ("/" ++ p)
        = effectiveRouteUrl (serviceUrlBase b n) p := by
  refine ⟨effectiveRouteUrl_decomp b n p, rstripSlash_last b, ?_, ?_, lstripSlash_head p, ?_⟩
  · cases hd : n.data with
    | nil => simp
    | cons c cs =>
      have : c ≠ '/' := hn c (by rw [hd]; exact List.mem_cons_self c cs)
      simpa using this
  · cases hd : n.data.getLast? with
    | none => simp
    | some c =>
      have hmem : c ∈ n.data := List.mem_of_getLast?_eq_some hd
      simpa using hn c hmem
  · show serviceUrlBase b n ++ lstripSlash ("/" ++ p) = serviceUrlBase b n ++ lstripSlash p
    rw [lstripSlash_slash_append]

/-- Witness for `route_namespacing_separators` at `("/api/", "foo", "bar")`. -/
theorem route_namespacing_separators_witness :
    (effectiveRouteUrl (serviceUrlBase "/api/" "foo") "bar").data
      = (rstripSlash "/api/").data
          ++ '/' :: (("foo" : String).data ++ '/' :: (lstripSlash "bar").data)
    ∧ (rstripSlash "/api/").data.getLast? ≠ some '/'
    ∧ ("foo" : String).data.head? ≠ some '/'
    ∧ ("foo" : String).data.getLast? ≠ some '/'
    ∧ (lstripSlash "bar").data.head? ≠ some '/'
    ∧ effectiveRouteUrl (serviceUrlBase "/api/" "foo") ("/" ++ "bar")
        = effectiveRouteUrl (serviceUrlBase "/api/" "foo") "bar" :=
  route_namespacing_separators "/api/" "foo" "bar" (by decide)

/-- C4 fails as stated: the code strips every leading separator, not at most
one, and strips the base's trailing separators before joining; on the inputs
below the code's URL and the spec-worded URL differ, and the spec-worded
construction even produces doubled separators. -/
theorem route_namespacing_spec_cex :
    effectiveRouteUrl (serviceUrlBase "/api" "foo") "//bar" = "/api/foo/bar"
    ∧ effectiveRouteUrlSpec "/api" "foo" "//bar" = "/api/foo//bar"
    ∧ effectiveRouteUrl (serviceUrlBase "/api" "foo") "//bar"
        ≠ effectiveRouteUrlSpec "/api" "foo" "//bar"
    ∧ effectiveRouteUrlSpec "/api/" "foo" "bar" = "/api//foo/bar"
    ∧ effectiveRouteUrl (serviceUrlBase "/api/" "foo") "bar" = "/api/foo/bar" := by decide

/-- C5 fails as stated: on the catch-all fallback handler, GET and POST do
reply 404, but DELETE does not delegate to the 404 behaviour — it falls
through to the `WSHandler` default and replies 501. -/
theorem fallback_delete_cex :
    invalidRequest.doGet.status = 404
    ∧ invalidRequest.doPost.status = 404
    ∧ invalidRequest.doDelete.status = 501
    ∧ ¬ invalidRequest.doDelete.status = 404 := by decide

/-- C5, amended: for a URL matched only by the catch-all fallback route, a
read (GET) returns status 404 with an empty body, a create (POST) delegates
to the same 404 behaviour, and a delete (DELETE) — like a replace (PUT) —
falls back to the inherited not-implemented reply, status 501 with body
`{"message": "not yet implemented"}`. -/
theorem fallback_route_replies :
    invalidRequest.doGet = ⟨404, []⟩
    ∧ invalidRequest.doPost = invalidRequest.doGet
    ∧ invalidRequest.doDelete = replyNotImplemented
    ∧ invalidRequest.doPut = replyNotImplemented
    ∧ replyNotImplemented = ⟨501, [("message", "not yet implemented")]⟩ := by decide

/-- C6: an error tagged as an intentional HTTP-status error is re-raised
untouched and yields exactly its status with body `{"message": <message>}`;
any other error yields status 500 with body `{"errtype": <class name>,
"message": <str form>, "additInfos": <reason if present, else ""> }`. -/
theorem handler_error_envelopes (e : PyExc) :
    (e.isHTTPError = true →
      processRequest (.raises e) = .reraised e
      ∧ handleRequest (.raises e) = ⟨e.httpStatus, [("message", e.logMessage)]⟩)
    ∧ (e.isHTTPError = false →
      handleRequest (.raises e)
        = ⟨500, [("errtype", e.typeName), ("message", e.strForm),
                 ("additInfos", e.reason.getD "")]⟩) := by
  constructor <;> intro h <;>
    cases hr : e.reason <;>
      simp [handleRequest, processRequest, writeError, exceptionReply, h, hr]

/-- Witness for `handler_error_envelopes` on a concrete 404 `HTTPError`. -/
theorem handler_error_envelopes_witness :
    processRequest (.raises ⟨true, 404, "gone", "HTTPError", "404: gone", none⟩)
      = .reraised ⟨true, 404, "gone", "HTTPError", "404: gone", none⟩
    ∧ handleRequest (.raises ⟨true, 404, "gone", "HTTPError", "404: gone", none⟩)
      = ⟨404, [("message", "gone")]⟩ :=
  (handler_error_envelopes ⟨true, 404, "gone", "HTTPError", "404: gone", none⟩).1 rfl

/-- C9 fails as stated: a start of a stopped server succeeds, and after that
start completes (the loop ran and was stopped) a second start succeeds
again, because `start` resets `self._ioloop` to `None` before returning. -/
theorem restart_after_stop_cex :
    startServer ⟨false⟩ = Except.ok ⟨false⟩
    ∧ (startServer ⟨false⟩).bind startServer = Except.ok ⟨false⟩ := by decide

/-- C9, amended: while a start is in progress (`self._ioloop` is set),
calling `start` fails with the already-started error; but the transition is
not irreversible for the instance — a completed `start` resets `_ioloop` to
`None`, after which `start` succeeds again. -/
theorem start_guard_behaviour (s : AppServerState) :
    (s.ioloopActive = true →
      startServerBegin s = .error "server already started"
      ∧ startServer s = .error "server already started")
    ∧ (s.ioloopActive = false →
      startServer s = .ok ⟨false⟩ ∧ startServer ⟨false⟩ = .ok ⟨false⟩) := by
  constructor <;> intro h <;>
    simp [startServer, startServerBegin, startServerFinish, h, Except.map]

/-- Witness for `start_guard_behaviour` on a running instance. -/
theorem start_guard_behaviour_witness :
    startServerBegin ⟨true⟩ = .error "server already started"
    ∧ startServer ⟨true⟩ = .error "server already started" :=
  (start_guard_behaviour ⟨true⟩).1 rfl

/-- Extending from an accumulator prepends it to the extension. -/
theorem extendAll_append : ∀ (svcs : List ServiceDescriptor) (a : List RouteRule),
    extendAll a svcs = a ++ extendAll [] svcs
  | [], a => by simp [extendAll]
  | s :: rest, a => by
    show extendAll (a ++ s.handlers) rest = a ++ extendAll ([] ++ s.handlers) rest
    rw [extendAll_append rest (a ++ s.handlers), extendAll_append rest ([] ++ s.handlers)]
    simp

/-- C10: `_setup_handlers` returns the class-level `toplevel_handlers` list
itself after extending it in place with the service rules and the fallback
rules; a second assembly therefore appends the service and fallback rules a
second time to the same shared list. -/
theorem setup_handlers_shared_class_list (tl : List RouteRule) (svcs : List ServiceDescriptor) :
    (setupHandlers tl svcs).1 = (setupHandlers tl svcs).2
    ∧ (setupHandlers tl svcs).1 = tl ++ extendAll [] svcs ++ fallbackHandlers
    ∧ (setupHandlers ((setupHandlers tl svcs).2) svcs).1
        = tl ++ extendAll [] svcs ++ fallbackHandlers
            ++ extendAll [] svcs ++ fallbackHandlers := by
  refine ⟨rfl, ?_, ?_⟩
  · show extendAll tl svcs ++ fallbackHandlers = _
    rw [extendAll_append svcs tl, List.append_assoc]
  · show extendAll (extendAll tl svcs ++ fallbackHandlers) svcs ++ fallbackHandlers = _
    rw [extendAll_append svcs (extendAll tl svcs ++ fallbackHandlers),
        extendAll_append svcs tl]

/-- `lexLe` is total. -/
theorem lexLe_total : ∀ a b : List Char, lexLe a b = true ∨ lexLe b a = true
  | [], _ => Or.inl rfl
  | _ :: _, [] => Or.inr rfl
  | a :: as, b :: bs => by
    by_cases h1 : a.toNat < b.toNat
    · left; simp [lexLe, h1]
    · by_cases h2 : b.toNat < a.toNat
      · right; simp [lexLe, h2]
      · cases lexLe_total as bs with
        | inl h => left; simp [lexLe, h1, h2, h]
        | inr h => right; simp [lexLe, h1, h2, h]

/-- `lexLe` is transitive. -/
theorem lexLe_trans : ∀ a b c : List Char,
    lexLe a b = true → lexLe b c = true → lexLe a c = true
  | [], _, _, _, _ => rfl
  | _ :: _, [], _, hab, _ => by simp [lexLe] at hab
  | _ :: _, _ :: _, [], _, hbc => by simp [lexLe] at hbc
  | a :: as, b :: bs, c :: cs, hab, hbc => by
    by_cases hab1 : a.toNat < b.toNat
    · by_cases hbc1 : b.toNat < c.toNat
      · simp [lexLe, Nat.lt_trans hab1 hbc1]
      · by_cases hbc2 : c.toNat < b.toNat
        · simp [lexLe, hbc1, hbc2] at hbc
        · have hac : a.toNat < c.toNat := by omega
          simp [lexLe, hac]
    · by_cases hab2 : b.toNat < a.toNat
      · simp [lexLe, hab1, hab2] at hab
      · have htab : lexLe as bs = true := by simpa [lexLe, hab1, hab2] using hab
        by_cases hbc1 : b.toNat < c.toNat
        · have hac : a.toNat < c.toNat := by omega
          simp [lexLe, hac]
        · by_cases hbc2 : c.toNat < b.toNat
          · simp [lexLe, hbc1, hbc2] at hbc
          · have htbc : lexLe bs cs = true := by simpa [lexLe, hbc1, hbc2] using hbc
            have h1 : ¬ a.toNat < c.toNat := by omega
            have h2 : ¬ c.toNat < a.toNat := by omega
            simp [lexLe, h1, h2, lexLe_trans as bs cs htab htbc]

theorem strLe_total (a b : String) : strLe a b = true ∨ strLe b a = true :=
  lexLe_total a.data b.data

theorem strLe_trans (a b c : String) (h1 : strLe a b = true) (h2 : strLe b c = true) :
    strLe a c = true :=
  lexLe_trans a.data b.data c.data h1 h2

theorem mem_insertDir (d y : ServiceDir) : ∀ l, y ∈ insertDir d l ↔ y = d ∨ y ∈ l
  | [] => by simp [insertDir]
  | x :: xs => by
    by_cases h : strLe d.name x.name = true
    · simp [insertDir, h]
    · rw [show insertDir d (x :: xs)
          = if strLe d.name x.name then d :: x :: xs else x :: insertDir d xs from rfl,
        if_neg h]
      simp only [List.mem_cons, mem_insertDir d y xs]
      tauto

/-- Inserting into a name-sorted list keeps it name-sorted. -/
theorem pairwise_insertDir (d : ServiceDir) :
    ∀ l, l.Pairwise (fun a b => strLe a.name b.name = true) →
      (insertDir d l).Pairwise (fun a b => strLe a.name b.name = true)
  | [], _ => by simp [insertDir]
  | x :: xs, hp => by
    rw [List.pairwise_cons] at hp
    by_cases h : strLe d.name x.name = true
    · rw [show insertDir d (x :: xs)
          = if strLe d.name x.name then d :: x :: xs else x :: insertDir d xs from rfl,
        if_pos h, List.pairwise_cons]
      refine ⟨?_, List.pairwise_cons.mpr hp⟩
      intro y hy
      rcases List.mem_cons.mp hy with rfl | hy2
      · exact h
      · exact strLe_trans d.name x.name y.name h (hp.1 y hy2)
    · have hxd : strLe x.name d.name = true := (strLe_total d.name x.name).resolve_left h
      rw [show insertDir d (x :: xs)
          = if strLe d.name x.name then d :: x :: xs else x :: insertDir d xs from rfl,
        if_neg h, List.pairwise_cons]
      constructor
      · intro y hy
        rcases (mem_insertDir d y xs).mp hy with rfl | hy2
        · exact hxd
        · exact hp.1 y hy2
      · exact pairwise_insertDir d xs hp.2

theorem pairwise_sortDirs : ∀ l : List ServiceDir,
    (sortDirs l).Pairwise (fun a b => strLe a.name b.name = true)
  | [] => List.Pairwise.nil
  | d :: ds => pairwise_insertDir d (sortDirs ds) (pairwise_sortDirs ds)

theorem mem_sortDirs (y : ServiceDir) : ∀ l, y ∈ sortDirs l ↔ y ∈ l
  | [] => Iff.rfl
  | d :: ds => by
    show y ∈ insertDir d (sortDirs ds) ↔ _
    rw [mem_insertDir d y (sortDirs ds), mem_sortDirs y ds]
    simp

/-- A directory missing a marker file is skipped after an info log. -/
theorem processDir_no_marker {c : String → Bool} {i : String → Option PyModule} {b : String}
    {d : ServiceDir} (h : (d.hasManifest && d.hasInitPy) = false) :
    processDir c i b d = ([.analysing d.name, .discarded], .ok none) := by
  simp [processDir, h]

/-- A directory whose manifest has the section but no `label` key makes
`processDir` propagate `NoOptionError` (the read is outside the `try`). -/
theorem processDir_missing_label {c : String → Bool} {i : String → Option PyModule} {b : String}
    {d : ServiceDir} (hm : d.hasManifest = true) (hi : d.hasInitPy = true)
    (hsec : d.manifest.hasMainSection = true) (hlab : d.manifest.label = none) :
    processDir c i b d
      = ([.analysing d.name, .validLocation],
         .error (.noOptionError "service" "label")) := by
  simp [processDir, hm, hi, mfGetLabel, hsec, hlab, MANIFEST_MAIN_SECTION]

/-- A directory whose manifest lacks the `[service]` section makes
`processDir` propagate `NoSectionError`. -/
theorem processDir_missing_section {c : String → Bool} {i : String → Option PyModule} {b : String}
    {d : ServiceDir} (hm : d.hasManifest = true) (hi : d.hasInitPy = true)
    (hsec : d.manifest.hasMainSection = false) :
    processDir c i b d
      = ([.analysing d.name, .validLocation], .error (.noSectionError "service")) := by
  simp [processDir, hm, hi, mfGetLabel, hsec, MANIFEST_MAIN_SECTION]

/-- An unresolvable module import is logged and re-raised by `processDir`. -/
theorem processDir_import_fail {c : String → Bool} {i : String → Option PyModule} {b : String}
    {d : ServiceDir} {lab : String}
    (hm : d.hasManifest = true) (hi : d.hasInitPy = true)
    (hsec : d.manifest.hasMainSection = true) (hlab : d.manifest.label = some lab)
    (him : i (SERVICES_PACKAGE_NAME ++ "." ++ d.name) = none) :
    processDir c i b d
      = ([.analysing d.name, .validLocation, .loading d.name,
          .fatalExc (.importError (SERVICES_PACKAGE_NAME ++ "." ++ d.name))],
         .error (.importError (SERVICES_PACKAGE_NAME ++ "." ++ d.name))) := by
  simp [processDir, hm, hi, mfGetLabel, mfGetMapping, hsec, hlab,
        tryLoadService, him, isFatalError]

/-- A module without the mapping attribute is logged and re-raised by
`processDir` (provided its `_init_`, if any, did not raise first). -/
theorem processDir_attr_fail {c : String → Bool} {i : String → Option PyModule} {b : String}
    {d : ServiceDir} {lab : String} {m : PyModule}
    (hm : d.hasManifest = true) (hi : d.hasInitPy = true)
    (hsec : d.manifest.hasMainSection = true) (hlab : d.manifest.label = some lab)
    (him : i (SERVICES_PACKAGE_NAME ++ "." ++ d.name) = some m)
    (hinit : m.hasInit = true → m.initResult = none)
    (hattr : lookupAttr m (d.manifest.mapping.getD "handlers") = none) :
    (processDir c i b d).2 = .error (.attrError (d.manifest.mapping.getD "handlers"))
    ∧ DiscLog.fatalExc (.attrError (d.manifest.mapping.getD "handlers"))
        ∈ (processDir c i b d).1 := by
  cases hhi : m.hasInit with
  | false =>
    constructor <;>
      simp [processDir, hm, hi, mfGetLabel, mfGetMapping, hsec, hlab,
            tryLoadService, him, hhi, hattr, isFatalError]
  | true =>
    constructor <;>
      simp [processDir, hm, hi, mfGetLabel, mfGetMapping, hsec, hlab,
            tryLoadService, him, hhi, hinit hhi, hattr, isFatalError]

/-- If any rule's namespaced pattern fails to compile, the whole route-table
rewrite raises an invalid-route error. -/
theorem buildHandlers_error {c : String → Bool} {urlBase : String} :
    ∀ rules : List RouteRule,
      (∃ r ∈ rules, c (effectiveRouteUrl urlBase r.pattern) = false) →
      ∃ u, buildHandlers c urlBase rules = .error (.invalidRoute u)
  | [], h => by simp at h
  | r :: rs, h => by
    by_cases hr : c (effectiveRouteUrl urlBase r.pattern) = true
    · have hex : ∃ q ∈ rs, c (effectiveRouteUrl urlBase q.pattern) = false := by
        rcases h with ⟨q, hq, hqc⟩
        rcases List.mem_cons.mp hq with rfl | hq2
        · rw [hr] at hqc; cases hqc
        · exact ⟨q, hq2, hqc⟩
      obtain ⟨u, hu⟩ := buildHandlers_error rs hex
      refine ⟨u, ?_⟩
      rw [show buildHandlers c urlBase (r :: rs)
          = if c (effectiveRouteUrl urlBase r.pattern) then
              match buildHandlers c urlBase rs with
              | .ok rest => .ok (⟨effectiveRouteUrl urlBase r.pattern, r.handler⟩ :: rest)
              | .error e => .error e
            else .error (.invalidRoute (effectiveRouteUrl urlBase r.pattern)) from rfl,
        if_pos hr, hu]
    · refine ⟨effectiveRouteUrl urlBase r.pattern, ?_⟩
      rw [show buildHandlers c urlBase (r :: rs)
          = if c (effectiveRouteUrl urlBase r.pattern) then
              match buildHandlers c urlBase rs with
              | .ok rest => .ok (⟨effectiveRouteUrl urlBase r.pattern, r.handler⟩ :: rest)
              | .error e => .error e
            else .error (.invalidRoute (effectiveRouteUrl urlBase r.pattern)) from rfl,
        if_neg hr]

/-- A plugin with any non-compiling namespaced route is skipped: no
descriptor, exception logged, skip message logged. -/
theorem processDir_invalid_route {c : String → Bool} {i : String → Option PyModule} {b : String}
    {d : ServiceDir} {lab : String} {m : PyModule} {rules : List RouteRule}
    (hm : d.hasManifest = true) (hi : d.hasInitPy = true)
    (hsec : d.manifest.hasMainSection = true) (hlab : d.manifest.label = some lab)
    (him : i (SERVICES_PACKAGE_NAME ++ "." ++ d.name) = some m)
    (hinit : m.hasInit = true → m.initResult = none)
    (hattr : lookupAttr m (d.manifest.mapping.getD "handlers") = some rules)
    (hbad : ∃ r ∈ rules, c (effectiveRouteUrl (serviceUrlBase b d.name) r.pattern) = false) :
    (processDir c i b d).2 = .ok none
    ∧ ∃ u, DiscLog.excLogged (.invalidRoute u) ∈ (processDir c i b d).1
        ∧ DiscLog.couldNotLoad d.name ∈ (processDir c i b d).1 := by
  obtain ⟨u, hu⟩ := buildHandlers_error rules hbad
  cases hhi : m.hasInit with
  | false =>
    refine ⟨?_, u, ?_, ?_⟩ <;>
      simp [processDir, hm, hi, mfGetLabel, mfGetMapping, hsec, hlab,
            tryLoadService, him, hhi, hattr, hu, isFatalError]
  | true =>
    refine ⟨?_, u, ?_, ?_⟩ <;>
      simp [processDir, hm, hi, mfGetLabel, mfGetMapping, hsec, hlab,
            tryLoadService, him, hhi, hinit hhi, hattr, hu, isFatalError]


/-- A successfully processed directory yields a descriptor bearing the
directory's name, and passed the marker check. -/
theorem processDir_ok_some_name {c : String → Bool} {i : String → Option PyModule} {b : String}
    {d : ServiceDir} {desc : ServiceDescriptor}
    (h : (processDir c i b d).2 = .ok (some desc)) :
    desc.name = d.name ∧ d.hasManifest = true ∧ d.hasInitPy = true := by
  by_cases hmark : (d.hasManifest && d.hasInitPy) = true
  case neg =>
    rw [processDir_no_marker (by revert hmark; cases (d.hasManifest && d.hasInitPy) <;> simp)] at h
    cases h
  case pos =>
  obtain ⟨hm, hi⟩ := (Bool.and_eq_true _ _).mp hmark
  refine ⟨?_, hm, hi⟩
  cases hsec : d.manifest.hasMainSection with
  | false => simp [processDir, hmark, mfGetLabel, hsec] at h
  | true =>
  cases hlab : d.manifest.label with
  | none => simp [processDir, hmark, mfGetLabel, hsec, hlab] at h
  | some lab =>
  cases him : i (SERVICES_PACKAGE_NAME ++ "." ++ d.name) with
  | none =>
    simp [processDir, hmark, mfGetLabel, mfGetMapping, hsec, hlab,
          tryLoadService, him, isFatalError] at h
  | some m =>
  cases hhi : m.hasInit with
  | false =>
    cases hat : lookupAttr m (d.manifest.mapping.getD "handlers") with
    | none =>
      simp [processDir, hmark, mfGetLabel, mfGetMapping, hsec, hlab,
            tryLoadService, him, hhi, hat, isFatalError] at h
    | some rules =>
      cases hbh : buildHandlers c (serviceUrlBase b d.name) rules with
      | error e =>
        simp [processDir, hmark, mfGetLabel, mfGetMapping, hsec, hlab,
              tryLoadService, him, hhi, hat, hbh] at h
        split at h <;> simp at h
      | ok hs =>
        simp [processDir, hmark, mfGetLabel, mfGetMapping, hsec, hlab,
              tryLoadService, him, hhi, hat, hbh] at h
        subst h
        rfl
  | true =>
    cases hir : m.initResult with
    | some e =>
      simp [processDir, hmark, mfGetLabel, mfGetMapping, hsec, hlab,
            tryLoadService, him, hhi, hir] at h
      split at h <;> simp at h
    | none =>
      cases hat : lookupAttr m (d.manifest.mapping.getD "handlers") with
      | none =>
        simp [processDir, hmark, mfGetLabel, mfGetMapping, hsec, hlab,
              tryLoadService, him, hhi, hir, hat, isFatalError] at h
      | some rules =>
        cases hbh : buildHandlers c (serviceUrlBase b d.name) rules with
        | error e =>
          simp [processDir, hmark, mfGetLabel, mfGetMapping, hsec, hlab,
                tryLoadService, him, hhi, hir, hat, hbh] at h
          split at h <;> simp at h
        | ok hs =>
          simp [processDir, hmark, mfGetLabel, mfGetMapping, hsec, hlab,
                tryLoadService, him, hhi, hir, hat, hbh] at h
          subst h
          rfl

/-- Unfolding of the loop result on a non-empty directory list. -/
theorem discoverLoop_cons (c : String → Bool) (i : String → Option PyModule) (b : String)
    (d : ServiceDir) (ds : List ServiceDir) :
    (discoverLoop c i b (d :: ds)).2
      = match (processDir c i b d).2 with
        | .error e => .error e
        | .ok odesc =>
          match (discoverLoop c i b ds).2 with
          | .error e => .error e
          | .ok l => .ok (match odesc with | some desc => desc :: l | none => l) := by
  cases hp : (processDir c i b d).2 with
  | error e => simp [discoverLoop, hp]
  | ok odesc => cases hr : (discoverLoop c i b ds).2 <;> simp [discoverLoop, hp, hr]

/-- If the loop returned a list, every directory of the input was processed
without a propagated error. -/
theorem discoverLoop_all_ok {c : String → Bool} {i : String → Option PyModule} {b : String} :
    ∀ {ds : List ServiceDir} {l : List ServiceDescriptor},
      (discoverLoop c i b ds).2 = .ok l →
      ∀ d ∈ ds, ∃ r, (processDir c i b d).2 = .ok r := by
  intro ds
  induction ds with
  | nil => intro l _ d hd; cases hd
  | cons x xs ih =>
    intro l h d hd
    rw [discoverLoop_cons] at h
    cases hp : (processDir c i b x).2 with
    | error e => rw [hp] at h; cases h
    | ok odesc =>
      rw [hp] at h
      cases hr : (discoverLoop c i b xs).2 with
      | error e => rw [hr] at h; cases h
      | ok l2 =>
        rcases List.mem_cons.mp hd with rfl | hmem
        · exact ⟨odesc, hp⟩
        · exact ih hr d hmem

/-- A directory processed to a skip does not influence the loop result. -/
theorem discoverLoop_skip {c : String → Bool} {i : String → Option PyModule} {b : String}
    {d : ServiceDir} (hd : (processDir c i b d).2 = .ok none) :
    ∀ pre post, (discoverLoop c i b (pre ++ d :: post)).2 = (discoverLoop c i b (pre ++ post)).2
  | [], post => by
    rw [List.nil_append, List.nil_append, discoverLoop_cons, hd]
    cases hr : (discoverLoop c i b post).2 <;> simp
  | q :: qs, post => by
    rw [List.cons_append, List.cons_append, discoverLoop_cons, discoverLoop_cons,
        discoverLoop_skip hd qs post]

/-- The names of the returned descriptors form a sublist of the names of the
traversed directories, in traversal order. -/
theorem discoverLoop_names {c : String → Bool} {i : String → Option PyModule} {b : String} :
    ∀ {ds : List ServiceDir} {l : List ServiceDescriptor},
      (discoverLoop c i b ds).2 = .ok l →
      (l.map ServiceDescriptor.name).Sublist (ds.map ServiceDir.name) := by
  intro ds
  induction ds with
  | nil =>
    intro l h
    have : l = [] := by simpa [discoverLoop] using h.symm
    simp [this]
  | cons x xs ih =>
    intro l h
    rw [discoverLoop_cons] at h
    cases hp : (processDir c i b x).2 with
    | error e => rw [hp] at h; cases h
    | ok odesc =>
      rw [hp] at h
      cases hr : (discoverLoop c i b xs).2 with
      | error e => rw [hr] at h; cases h
      | ok l2 =>
        rw [hr] at h
        cases odesc with
        | none =>
          have hl : l2 = l := by simpa using h
          subst hl
          exact (ih hr).cons x.name
        | some desc =>
          have hl : desc :: l2 = l := by simpa using h
          subst hl
          have hname := (processDir_ok_some_name hp).1
          simpa [hname] using (ih hr).cons₂ x.name

/-- Every returned descriptor stems from a traversed directory of the same
name that passed the marker-file check. -/
theorem discoverLoop_mem {c : String → Bool} {i : String → Option PyModule} {b : String} :
    ∀ {ds : List ServiceDir} {l : List ServiceDescriptor},
      (discoverLoop c i b ds).2 = .ok l →
      ∀ desc ∈ l, ∃ d ∈ ds,
        desc.name = d.name ∧ d.hasManifest = true ∧ d.hasInitPy = true := by
  intro ds
  induction ds with
  | nil =>
    intro l h desc hdesc
    have : l = [] := by simpa [discoverLoop] using h.symm
    subst this
    cases hdesc
  | cons x xs ih =>
    intro l h desc hdesc
    rw [discoverLoop_cons] at h
    cases hp : (processDir c i b x).2 with
    | error e => rw [hp] at h; cases h
    | ok odesc =>
      rw [hp] at h
      cases hr : (discoverLoop c i b xs).2 with
      | error e => rw [hr] at h; cases h
      | ok l2 =>
        rw [hr] at h
        cases odesc with
        | none =>
          have hl : l2 = l := by simpa using h
          subst hl
          obtain ⟨d, hd, hfacts⟩ := ih hr desc hdesc
          exact ⟨d, List.mem_cons_of_mem x hd, hfacts⟩
        | some desc0 =>
          have hl : desc0 :: l2 = l := by simpa using h
          subst hl
          rcases List.mem_cons.mp hdesc with rfl | hmem
          · obtain ⟨hname, hm, hi2⟩ := processDir_ok_some_name hp
            exact ⟨x, List.mem_cons_self x xs, hname, hm, hi2⟩
          · obtain ⟨d, hd, hfacts⟩ := ih hr desc hmem
            exact ⟨d, List.mem_cons_of_mem x hd, hfacts⟩

/-- C8: the discovery result contains descriptors only for directories that
contain both the manifest file and the module-entry marker file, and the
descriptors appear in ascending (Python string) order of directory name,
insertion order being the sorted traversal order. -/
theorem discovery_result_markers_sorted (c : String → Bool) (i : String → Option PyModule)
    (b : String) (dirs : List ServiceDir) (l : List ServiceDescriptor)
    (h : (discoverServices c i b dirs).2 = .ok l) :
    (∀ desc ∈ l, ∃ d ∈ dirs,
        desc.name = d.name ∧ d.hasManifest = true ∧ d.hasInitPy = true)
    ∧ (l.map ServiceDescriptor.name).Pairwise (fun a b => strLe a b = true) := by
  have h2 : (discoverLoop c i b (sortDirs dirs)).2 = .ok l := h
  constructor
  · intro desc hdesc
    obtain ⟨d, hd, hfacts⟩ := discoverLoop_mem h2 desc hdesc
    exact ⟨d, (mem_sortDirs d dirs).mp hd, hfacts⟩
  · have hsub := discoverLoop_names h2
    have hpair : ((sortDirs dirs).map ServiceDir.name).Pairwise
        (fun a b => strLe a b = true) :=
      List.pairwise_map.mpr (pairwise_sortDirs dirs)
    exact hpair.sublist hsub

/-- Witness for `discovery_result_markers_sorted`: three candidates, one of
which lacks the entry marker, given out of order. -/
theorem discovery_result_markers_sorted_witness :
    (∀ desc ∈ ([⟨"aaa", "Label", [⟨"/api/aaa/x", "XHandler"⟩]⟩,
                ⟨"ccc", "Label", [⟨"/api/ccc/x", "XHandler"⟩]⟩] : List ServiceDescriptor),
       ∃ d ∈ [svcDirC, svcDirNoMarker, svcDirA],
         desc.name = d.name ∧ d.hasManifest = true ∧ d.hasInitPy = true)
    ∧ ((([⟨"aaa", "Label", [⟨"/api/aaa/x", "XHandler"⟩]⟩,
          ⟨"ccc", "Label", [⟨"/api/ccc/x", "XHandler"⟩]⟩] : List ServiceDescriptor)).map
        ServiceDescriptor.name).Pairwise (fun a b => strLe a b = true) :=
  discovery_result_markers_sorted allRegexOk sampleImport "/api/"
    [svcDirC, svcDirNoMarker, svcDirA]
    [⟨"aaa", "Label", [⟨"/api/aaa/x", "XHandler"⟩]⟩,
     ⟨"ccc", "Label", [⟨"/api/ccc/x", "XHandler"⟩]⟩] (by decide)

/-- C1, amended: a candidate directory that passes the marker check but
whose manifest lacks the `label` key or the `[service]` section raises an
uncaught config error (the reads happen outside the `try` block) that
propagates out of `_discover_services`, aborting the whole discovery — the
plugin is not merely excluded, and the other candidates' descriptors are
not returned. -/
theorem missing_label_aborts_discovery (c : String → Bool) (i : String → Option PyModule)
    (b : String) (dirs : List ServiceDir) (d : ServiceDir)
    (hmem : d ∈ dirs) (hm : d.hasManifest = true) (hi : d.hasInitPy = true)
    (hbad : d.manifest.hasMainSection = false
      ∨ (d.manifest.hasMainSection = true ∧ d.manifest.label = none)) :
    (processDir c i b d).2
      = .error (if d.manifest.hasMainSection then .noOptionError "service" "label"
                else .noSectionError "service")
    ∧ ∀ l, (discoverServices c i b dirs).2 ≠ .ok l := by
  have hp : (processDir c i b d).2
      = .error (if d.manifest.hasMainSection then .noOptionError "service" "label"
                else .noSectionError "service") := by
    rcases hbad with hsec | ⟨hsec, hlab⟩
    · rw [processDir_missing_section hm hi hsec, hsec]
      rfl
    · rw [processDir_missing_label hm hi hsec hlab, hsec]
      rfl
  refine ⟨hp, ?_⟩
  intro l h
  have h2 : (discoverLoop c i b (sortDirs dirs)).2 = .ok l := h
  obtain ⟨r, hr⟩ := discoverLoop_all_ok h2 d ((mem_sortDirs d dirs).mpr hmem)
  rw [hp] at hr
  cases hr

/-- Witness for `missing_label_aborts_discovery` on a concrete layout. -/
theorem missing_label_aborts_discovery_witness :
    (processDir allRegexOk sampleImport "/api/" svcDirBad).2
      = .error (.noOptionError "service" "label")
    ∧ (discoverServices allRegexOk sampleImport "/api/"
        [svcDirA, svcDirBad, svcDirC]).2 ≠ .ok [] :=
  ⟨(missing_label_aborts_discovery allRegexOk sampleImport "/api/"
      [svcDirA, svcDirBad, svcDirC] svcDirBad (by decide) (by decide) (by decide)
      (Or.inr ⟨by decide, by decide⟩)).1,
   (missing_label_aborts_discovery allRegexOk sampleImport "/api/"
      [svcDirA, svcDirBad, svcDirC] svcDirBad (by decide) (by decide) (by decide)
      (Or.inr ⟨by decide, by decide⟩)).2 []⟩

/-- C1 fails as stated: with two valid plugins and one whose manifest lacks
`label`, discovery does not continue and yield the two valid descriptors —
it propagates `NoOptionError` and returns no list at all. -/
theorem missing_label_cex :
    (discoverServices allRegexOk sampleImport "/api/" [svcDirA, svcDirBad, svcDirC]).2
      = .error (.noOptionError "service" "label")
    ∧ (discoverServices allRegexOk sampleImport "/api/" [svcDirA, svcDirBad, svcDirC]).2
      ≠ .ok [⟨"aaa", "Label", [⟨"/api/aaa/x", "XHandler"⟩]⟩,
             ⟨"ccc", "Label", [⟨"/api/ccc/x", "XHandler"⟩]⟩] := by decide

/-- C2: a failed module import, or a module missing the attribute named by
the manifest's mapping key, is logged through the fatal `except` clause and
re-raised, propagating out of the discovery call and aborting it whole. -/
theorem import_error_aborts_discovery (c : String → Bool) (i : String → Option PyModule)
    (b : String) (dirs : List ServiceDir) (d : ServiceDir) (lab : String)
    (hmem : d ∈ dirs) (hm : d.hasManifest = true) (hi : d.hasInitPy = true)
    (hsec : d.manifest.hasMainSection = true) (hlab : d.manifest.label = some lab)
    (hfail : i (SERVICES_PACKAGE_NAME ++ "." ++ d.name) = none
      ∨ ∃ m, i (SERVICES_PACKAGE_NAME ++ "." ++ d.name) = some m
          ∧ (m.hasInit = true → m.initResult = none)
          ∧ lookupAttr m (d.manifest.mapping.getD "handlers") = none) :
    (∃ e, isFatalError e = true ∧ (processDir c i b d).2 = .error e
        ∧ DiscLog.fatalExc e ∈ (processDir c i b d).1)
    ∧ ∀ l, (discoverServices c i b dirs).2 ≠ .ok l := by
  have hfe : ∃ e, isFatalError e = true ∧ (processDir c i b d).2 = .error e
      ∧ DiscLog.fatalExc e ∈ (processDir c i b d).1 := by
    rcases hfail with him | ⟨m, him, hinit, hattr⟩
    · refine ⟨.importError (SERVICES_PACKAGE_NAME ++ "." ++ d.name), rfl, ?_, ?_⟩ <;>
        simp [processDir_import_fail hm hi hsec hlab him]
    · obtain ⟨h1, h2⟩ := processDir_attr_fail hm hi hsec hlab him hinit hattr
      exact ⟨.attrError (d.manifest.mapping.getD "handlers"), rfl, h1, h2⟩
  refine ⟨hfe, ?_⟩
  intro l h
  have h2 : (discoverLoop c i b (sortDirs dirs)).2 = .ok l := h
  obtain ⟨r, hr⟩ := discoverLoop_all_ok h2 d ((mem_sortDirs d dirs).mpr hmem)
  obtain ⟨e, _, hpe, _⟩ := hfe
  rw [hpe] at hr
  cases hr

/-- Witness for `import_error_aborts_discovery` with an unresolvable
module next to nothing else. -/
theorem import_error_aborts_discovery_witness :
    (∃ e, isFatalError e = true
        ∧ (processDir allRegexOk noImport "/api/" svcDirA).2 = .error e
        ∧ DiscLog.fatalExc e ∈ (processDir allRegexOk noImport "/api/" svcDirA).1)
    ∧ (discoverServices allRegexOk noImport "/api/" [svcDirA]).2 ≠ .ok [] :=
  ⟨(import_error_aborts_discovery allRegexOk noImport "/api/" [svcDirA] svcDirA "Label"
      (by decide) (by decide) (by decide) (by decide) (by decide)
      (Or.inl (by decide))).1,
   (import_error_aborts_discovery allRegexOk noImport "/api/" [svcDirA] svcDirA "Label"
      (by decide) (by decide) (by decide) (by decide) (by decide)
      (Or.inl (by decide))).2 []⟩

/-- C3: a plugin any of whose namespaced route patterns fails to compile is
skipped as a whole — no descriptor is appended, not even for its earlier
valid routes; the invalid-route exception and the could-not-load message
are logged; and discovery proceeds over the remaining candidate directories
exactly as if the plugin were absent. -/
theorem invalid_route_skips_plugin (c : String → Bool) (i : String → Option PyModule)
    (b : String) (d : ServiceDir) (lab : String) (m : PyModule) (rules : List RouteRule)
    (hm : d.hasManifest = true) (hi : d.hasInitPy = true)
    (hsec : d.manifest.hasMainSection = true) (hlab : d.manifest.label = some lab)
    (him : i (SERVICES_PACKAGE_NAME ++ "." ++ d.name) = some m)
    (hinit : m.hasInit = true → m.initResult = none)
    (hattr : lookupAttr m (d.manifest.mapping.getD "handlers") = some rules)
    (hbad : ∃ r ∈ rules, c (effectiveRouteUrl (serviceUrlBase b d.name) r.pattern) = false) :
    (processDir c i b d).2 = .ok none
    ∧ (∃ u, DiscLog.excLogged (.invalidRoute u) ∈ (processDir c i b d).1
        ∧ DiscLog.couldNotLoad d.name ∈ (processDir c i b d).1)
    ∧ ∀ pre post, (discoverLoop c i b (pre ++ d :: post)).2
        = (discoverLoop c i b (pre ++ post)).2 := by
  obtain ⟨hskip, hlog⟩ := processDir_invalid_route hm hi hsec hlab him hinit hattr hbad
  exact ⟨hskip, hlog, discoverLoop_skip hskip⟩

/-- A module whose second route pattern will not compile once namespaced. -/
def badRouteModule : PyModule :=
  ⟨[("handlers", [⟨"/ok", "H1"⟩, ⟨"/bad(", "H2"⟩])], false, none⟩

def badRouteImport : String → Option PyModule := fun _ => some badRouteModule

/-- `re.compile` succeeding on everything except the one broken pattern. -/
def rejectBadParen : String → Bool := fun s => !(s == "/api/bbb/bad(")

/-- A marker-complete directory named `bbb` with a well-formed manifest. -/
def svcDirBadRoute : ServiceDir := ⟨"bbb", true, true, okManifest⟩

/-- Witness for `invalid_route_skips_plugin`: the `bbb` plugin is skipped
and the loop over `aaa`, `bbb`, `ccc` equals the loop over `aaa`, `ccc`. -/
theorem invalid_route_skips_plugin_witness :
    (processDir rejectBadParen badRouteImport "/api/" svcDirBadRoute).2 = .ok none
    ∧ (∃ u, DiscLog.excLogged (.invalidRoute u)
          ∈ (processDir rejectBadParen badRouteImport "/api/" svcDirBadRoute).1
        ∧ DiscLog.couldNotLoad "bbb"
          ∈ (processDir rejectBadParen badRouteImport "/api/" svcDirBadRoute).1)
    ∧ (discoverLoop rejectBadParen badRouteImport "/api/"
        ([svcDirA] ++ svcDirBadRoute :: [svcDirC])).2
      = (discoverLoop rejectBadParen badRouteImport "/api/" ([svcDirA] ++ [svcDirC])).2 :=
  let h := invalid_route_skips_plugin rejectBadParen badRouteImport "/api/"
    svcDirBadRoute "Label" badRouteModule [⟨"/ok", "H1"⟩, ⟨"/bad(", "H2"⟩]
    (by decide) (by decide) (by decide) (by decide) (by decide) (by decide)
    (by decide) (by decide)
  ⟨h.1, h.2.1, h.2.2 [svcDirA] [svcDirC]⟩

/-- A successful request whose URI is already muted logs nothing. -/
theorem logRequest_muted {muted : List String} {r : CompletedRequest}
    (hs : r.status < 400) (hin : r.uri ∈ muted) :
    logRequest muted r = (muted, []) := by
  unfold logRequest
  rw [if_pos hs, if_pos hin]

/-- The first successful request of a mute-flagged handler for a URI logs
the one-time suppression warning and the info request line, and mutes the
URI. -/
theorem logRequest_first {muted : List String} {r : CompletedRequest}
    (hs : r.status < 400) (hin : r.uri ∉ muted) (hf : r.disableRequestLogging = true) :
    logRequest muted r
      = (muted ++ [r.uri], [.muteNotice r.uri, .requestLine .info r.status r.uri]) := by
  unfold logRequest
  rw [if_pos hs, if_neg hin, hf, if_pos rfl]

/-- A failing request is always logged, at warning level below 500 and at
error level from 500 on, and leaves the muted list unchanged. -/
theorem logRequest_fail {muted : List String} {r : CompletedRequest}
    (hs : ¬ r.status < 400) :
    logRequest muted r
      = (muted, [.requestLine (if r.status < 500 then .warning else .error)
                  r.status r.uri]) := by
  unfold logRequest
  rw [if_neg hs]
  by_cases h5 : r.status < 500
  · rw [if_pos h5, if_pos h5]
  · rw [if_neg h5, if_neg h5]

/-- The trace over an appended request list splits at the boundary. -/
theorem logTrace_append (muted : List String) :
    ∀ xs ys, logTrace muted (xs ++ ys)
      = logTrace muted xs ++ logTrace (muteStateAfter muted xs) ys
  | [], _ => rfl
  | x :: xs, ys => by
    show (logRequest muted x).2 :: logTrace (logRequest muted x).1 (xs ++ ys) = _
    rw [logTrace_append (logRequest muted x).1 xs ys]
    rfl

/-- Under mute-flagged handlers, the muted list after a run consists of the
initially muted URIs plus the URIs of the run's successful requests. -/
theorem mem_muteStateAfter {u : String} :
    ∀ (rs : List CompletedRequest) (muted : List String),
      (∀ r ∈ rs, r.disableRequestLogging = true) →
      (u ∈ muteStateAfter muted rs ↔
        u ∈ muted ∨ ∃ r ∈ rs, r.status < 400 ∧ r.uri = u)
  | [], muted, _ => by simp [muteStateAfter]
  | r :: rs, muted, hall => by
    have hr : r.disableRequestLogging = true := hall r (List.mem_cons_self r rs)
    have ih := mem_muteStateAfter (u := u) rs (logRequest muted r).1
      (fun q hq => hall q (List.mem_cons_of_mem r hq))
    show u ∈ muteStateAfter (logRequest muted r).1 rs ↔ _
    rw [ih]
    by_cases hs : r.status < 400
    · by_cases hin : r.uri ∈ muted
      · rw [logRequest_muted hs hin]
        constructor
        · rintro (h | ⟨q, hq, hq4, hqu⟩)
          · exact Or.inl h
          · exact Or.inr ⟨q, List.mem_cons_of_mem r hq, hq4, hqu⟩
        · rintro (h | ⟨q, hq, hq4, hqu⟩)
          · exact Or.inl h
          · rcases List.mem_cons.mp hq with rfl | hq2
            · rw [← hqu]; exact Or.inl hin
            · exact Or.inr ⟨q, hq2, hq4, hqu⟩
      · rw [logRequest_first hs hin hr]
        constructor
        · rintro (h | ⟨q, hq, hq4, hqu⟩)
          · rcases List.mem_append.mp h with h1 | h1
            · exact Or.inl h1
            · have : u = r.uri := by simpa using h1
              exact Or.inr ⟨r, List.mem_cons_self r rs, hs, this.symm⟩
          · exact Or.inr ⟨q, List.mem_cons_of_mem r hq, hq4, hqu⟩
        · rintro (h | ⟨q, hq, hq4, hqu⟩)
          · exact Or.inl (List.mem_append.mpr (Or.inl h))
          · rcases List.mem_cons.mp hq with rfl | hq2
            · exact Or.inl (List.mem_append.mpr (Or.inr (by simp [hqu])))
            · exact Or.inr ⟨q, hq2, hq4, hqu⟩
    · rw [logRequest_fail hs]
      constructor
      · rintro (h | ⟨q, hq, hq4, hqu⟩)
        · exact Or.inl h
        · exact Or.inr ⟨q, List.mem_cons_of_mem r hq, hq4, hqu⟩
      · rintro (h | ⟨q, hq, hq4, hqu⟩)
        · exact Or.inl h
        · rcases List.mem_cons.mp hq with rfl | hq2
          · exact absurd hq4 hs
          · exact Or.inr ⟨q, hq2, hq4, hqu⟩

/-- C7: over a run of completed requests whose handlers all carry the
`disable_request_logging` marker, starting from a fresh muted list: the
trace decomposes request by request; a request finishing with status 400 or
above always logs exactly one request line (warning below 500, error from
500 on), muted or not; the first successful request of a given URI logs the
one-time suppression warning together with the info request line; and every
later successful request of that same URI logs nothing at all. -/
theorem mute_logging_contract (pre : List CompletedRequest) (r : CompletedRequest)
    (post : List CompletedRequest)
    (hall : ∀ q ∈ pre ++ r :: post, q.disableRequestLogging = true) :
    logTrace [] (pre ++ r :: post)
      = logTrace [] pre
        ++ (logRequest (muteStateAfter [] pre) r).2
          :: logTrace (logRequest (muteStateAfter [] pre) r).1 post
    ∧ (¬ r.status < 400 →
        (logRequest (muteStateAfter [] pre) r).2
          = [.requestLine (if r.status < 500 then .warning else .error)
              r.status r.uri])
    ∧ (r.status < 400 → (∀ q ∈ pre, q.uri = r.uri → ¬ q.status < 400) →
        (logRequest (muteStateAfter [] pre) r).2
          = [.muteNotice r.uri, .requestLine .info r.status r.uri])
    ∧ (r.status < 400 → (∃ q ∈ pre, q.status < 400 ∧ q.uri = r.uri) →
        (logRequest (muteStateAfter [] pre) r).2 = []) := by
  have hallpre : ∀ q ∈ pre, q.disableRequestLogging = true :=
    fun q hq => hall q (List.mem_append_left _ hq)
  have hrmute : r.disableRequestLogging = true :=
    hall r (List.mem_append_right _ (List.mem_cons_self _ _))
  refine ⟨?_, ?_, ?_, ?_⟩
  · rw [logTrace_append [] pre (r :: post)]
    rfl
  · intro hs
    rw [logRequest_fail hs]
  · intro hs hfirst
    have hnot : r.uri ∉ muteStateAfter [] pre := by
      rw [mem_muteStateAfter pre [] hallpre]
      rintro (h | ⟨q, hq, hq4, hqu⟩)
      · cases h
      · exact hfirst q hq hqu hq4
    rw [logRequest_first hs hnot hrmute]
  · intro hs hseen
    have hin : r.uri ∈ muteStateAfter [] pre := by
      rw [mem_muteStateAfter pre [] hallpre]
      exact Or.inr hseen
    rw [logRequest_muted hs hin]

/-- Witness for `mute_logging_contract`: the second successful request for
the muted URI `/u` logs nothing. -/
theorem mute_logging_contract_witness :
    logTrace [] ([⟨"/u", 200, true⟩] ++ (⟨"/u", 200, true⟩ : CompletedRequest) :: [])
      = logTrace [] [⟨"/u", 200, true⟩]
        ++ (logRequest (muteStateAfter [] [⟨"/u", 200, true⟩]) ⟨"/u", 200, true⟩).2
          :: logTrace
              (logRequest (muteStateAfter [] [⟨"/u", 200, true⟩]) ⟨"/u", 200, true⟩).1 []
    ∧ (logRequest (muteStateAfter [] [⟨"/u", 200, true⟩]) ⟨"/u", 200, true⟩).2 = [] :=
  let h := mute_logging_contract [⟨"/u", 200, true⟩] ⟨"/u", 200, true⟩ [] (by decide)
  ⟨h.1, h.2.2.2 (by decide) ⟨⟨"/u", 200, true⟩, by decide, by decide, rfl⟩⟩
